import Mathlib

/-!
Verification of the LearnOn audio subsystem.

This file gives a shallow embedding of the audio core of the repository:
the PCM codec in src/utils/audioUtils.ts (decodeRawPCM, bufferToWave) and
the playback engine / visualizer of the AudioPlayer component in
src/components/ProcessingStep.tsx (playAudio, pauseAudio, stopAudio,
togglePlay, handleSeek, drawVisualizer), and proves the specified
properties about it.

Modelling conventions:
- JavaScript numbers are modelled as exact rationals extended with the
  IEEE special values NaN and the two infinities (type JSNum).  Every
  arithmetic step performed by the codec on in-range data is exact in
  binary floating point (division and multiplication by the power of two
  32768, multiplication of a 15-bit value by 32767), so the rational
  model is faithful on those paths; the special values are carried
  explicitly so that the totality of the encoder can be stated.
- Byte sequences are lists of naturals; a Uint8Array guarantees each
  element is below 256, which appears as a hypothesis where needed.
- Fallible code returns Except: the Int16Array constructor on line 26 of
  audioUtils.ts throws when the underlying byteLength is odd, which the
  specification names the MalformedAudioData error kind, and
  createBuffer on line 29 throws the platform NotSupportedError when
  asked for a zero-length buffer.
- React state updates are asynchronous: a closure created during a
  render reads the isPlaying value of that render, not the current one.
  The visualizer chain therefore carries the captured flag of the
  closure that schedules it, distinct from the live isPlaying field.
-/

namespace LearnOn

/-- Error kinds of the specification (section 7), together with the
platform DOMException NotSupportedError that createBuffer must throw on
a zero-length buffer, which lies outside the taxonomy of the
specification. -/
inductive AudioError where
  | malformedAudioData
  | playbackUnavailable
  | upstreamFailure
  | notSupportedError
deriving DecidableEq, Repr

/-- A JavaScript number: an exact rational, NaN, or a signed infinity. -/
inductive JSNum where
  | nan : JSNum
  | posInf : JSNum
  | negInf : JSNum
  | num : ℚ → JSNum
deriving DecidableEq, Repr

namespace JSNum

/-- Math.min with a rational first argument: NaN propagates. -/
def jsMin (c : ℚ) : JSNum → JSNum
  | nan => nan
  | posInf => num c
  | negInf => negInf
  | num q => num (min c q)

/-- Math.max with a rational first argument: NaN propagates. -/
def jsMax (c : ℚ) : JSNum → JSNum
  | nan => nan
  | posInf => posInf
  | negInf => num c
  | num q => num (max c q)

/-- The comparison x < 0 of line 92: false on NaN. -/
def ltZero : JSNum → Bool
  | nan => false
  | posInf => false
  | negInf => true
  | num q => decide (q < 0)

/-- Multiplication by a positive integer constant. -/
def mulPos (k : ℕ) : JSNum → JSNum
  | nan => nan
  | posInf => posInf
  | negInf => negInf
  | num q => num (q * k)

end JSNum

/-- Truncation toward zero of a rational, as applied by ToInt32 to a
finite value: the floor for non-negative values, the ceiling (written
through the numerator so that the kernel can evaluate it) otherwise. -/
def ratTrunc (q : ℚ) : ℤ :=
  if 0 ≤ q then q.num / (q.den : ℤ) else -((-q).num / ((-q).den : ℤ))

/-- The JavaScript operation x | 0, i.e. ToInt32: NaN and the infinities
become 0, finite values are truncated toward zero and wrapped into the
signed 32-bit range. -/
def jsOrZero : JSNum → ℤ
  | JSNum.nan => 0
  | JSNum.posInf => 0
  | JSNum.negInf => 0
  | JSNum.num q => ((ratTrunc q + 2 ^ 31) % 2 ^ 32) - 2 ^ 31

/-- Lines 90-92 of audioUtils.ts: clamp the sample to [-1, 1], scale
negative values by 0x8000 and non-negative ones by 0x7FFF, truncate
with | 0. -/
def floatToInt16 (x : JSNum) : ℤ :=
  let clamped := JSNum.jsMax (-1) (JSNum.jsMin 1 x)
  jsOrZero (if clamped.ltZero then clamped.mulPos 0x8000 else clamped.mulPos 0x7FFF)

/-- One little-endian signed 16-bit value from two bytes, as the
platform Int16Array view reinterprets them. -/
def int16OfPair (b0 b1 : ℕ) : ℤ :=
  let u := b0 + 256 * b1
  if u < 32768 then (u : ℤ) else (u : ℤ) - 65536

/-- The Int16Array view of an even-length byte sequence (little endian,
line 26 of audioUtils.ts). -/
def bytesToInt16LE : List ℕ → List ℤ
  | b0 :: b1 :: rest => int16OfPair b0 b1 :: bytesToInt16LE rest
  | _ => []

/-- Two little-endian bytes of a signed 16-bit value, as DataView
setInt16 with littleEndian = true stores it (line 93). -/
def setInt16LE (v : ℤ) : List ℕ :=
  let u := (v % 65536).toNat
  [u % 256, u / 256]

/-- Four little-endian bytes of a 32-bit value (DataView setUint32 with
littleEndian = true). -/
def setUint32LE (n : ℕ) : List ℕ :=
  [n % 256, n / 256 % 256, n / 65536 % 256, n / 16777216 % 256]

/-- Two little-endian bytes of a 16-bit value (DataView setUint16 with
littleEndian = true). -/
def setUint16LE (n : ℕ) : List ℕ :=
  [n % 256, n / 256 % 256]

/-- Lines 45-49 of audioUtils.ts: the ASCII codes of a tag string. -/
def writeString (s : String) : List ℕ :=
  s.toList.map Char.toNat

/-- The mono sample buffer produced by decodeRawPCM: a sample rate and
one channel of floating-point data (the specification fixes the channel
count at 1). -/
structure AudioBuffer where
  sampleRate : ℕ
  channelData : List JSNum
deriving DecidableEq, Repr

/-- The Web Audio channel count of the codec buffers: always mono. -/
def AudioBuffer.numberOfChannels (_ : AudioBuffer) : ℕ := 1

/-- AudioBuffer.duration: sample count divided by the sample rate. -/
def AudioBuffer.duration (b : AudioBuffer) : ℚ :=
  (b.channelData.length : ℚ) / (b.sampleRate : ℚ)

/-- Lines 23-40 of audioUtils.ts, after the byte-transparent base64
step: build the little-endian Int16Array view of the bytes (the
constructor throws on an odd byteLength, the MalformedAudioData error of
the specification); then line 29 calls
audioContext.createBuffer(1, int16Data.length, sampleRate), which the
Web Audio API mandates throw NotSupportedError when the length is 0
(the nominal-range check on the sample rate is not modelled: every
caller passes the fixed rate 24000); finally normalize each 16-bit
integer v to the float v / 32768.0. -/
def decodeRawPCMBytes (bytes : List ℕ) (sampleRate : ℕ) : Except AudioError AudioBuffer :=
  if bytes.length % 2 ≠ 0 then
    .error .malformedAudioData
  else
    let int16Data := bytesToInt16LE bytes
    if int16Data.length = 0 then
      .error .notSupportedError
    else
      .ok { sampleRate := sampleRate
            channelData := int16Data.map (fun v : ℤ => JSNum.num ((v : ℚ) / 32768)) }

/-- The 44-byte WAV header written by lines 66-80 of audioUtils.ts for a
mono buffer (numOfChan = 1); length is the total byte length
len * 1 * 2 + 44 and pos is 0 when the data-chunk size is written. -/
def wavHeader (ab : AudioBuffer) (len : ℕ) : List ℕ :=
  let numOfChan := AudioBuffer.numberOfChannels ab
  let length := len * numOfChan * 2 + 44
  writeString "RIFF" ++ setUint32LE (length - 8) ++
  writeString "WAVE" ++ writeString "fmt " ++
  setUint32LE 16 ++ setUint16LE 1 ++ setUint16LE numOfChan ++
  setUint32LE ab.sampleRate ++ setUint32LE (ab.sampleRate * 2 * numOfChan) ++
  setUint16LE (numOfChan * 2) ++ setUint16LE 16 ++
  writeString "data" ++ setUint32LE (length - 44)

/-- The interleaved sample bytes of the while loop at lines 87-97: each
sample is clamped, scaled and stored little endian. -/
def wavData : List JSNum → List ℕ
  | [] => []
  | s :: rest => setInt16LE (floatToInt16 s) ++ wavData rest

/-- Lines 54-100 of audioUtils.ts for a mono buffer: header followed by
len samples; a read past the end of the channel data yields undefined,
which the arithmetic of line 90 turns into NaN. -/
def bufferToWave (ab : AudioBuffer) (len : ℕ) : List ℕ :=
  wavHeader ab len ++
  wavData ((List.range len).map (fun pos => ab.channelData.getD pos JSNum.nan))

/-- The rational value of a finite JavaScript number (0 on the special
values, which never occur in decoded data). -/
def JSNum.toRat : JSNum → ℚ
  | JSNum.num q => q
  | _ => 0

/-- Read back a little-endian 16-bit field of a byte sequence. -/
def readLE16 (bs : List ℕ) (off : ℕ) : ℕ :=
  bs.getD off 0 + 256 * bs.getD (off + 1) 0

/-- Read back a little-endian 32-bit field of a byte sequence. -/
def readLE32 (bs : List ℕ) (off : ℕ) : ℕ :=
  bs.getD off 0 + 256 * bs.getD (off + 1) 0 +
  65536 * bs.getD (off + 2) 0 + 16777216 * bs.getD (off + 3) 0

instance {ε α : Type} [DecidableEq ε] [DecidableEq α] : DecidableEq (Except ε α) := fun a b =>
  match a, b with
  | .error e, .error f =>
    if h : e = f then isTrue (congrArg Except.error h)
    else isFalse (fun hc => h (Except.error.inj hc))
  | .error _, .ok _ => isFalse (fun hc => Except.noConfusion hc)
  | .ok _, .error _ => isFalse (fun hc => Except.noConfusion hc)
  | .ok a, .ok b =>
    if h : a = b then isTrue (congrArg Except.ok h)
    else isFalse (fun hc => h (Except.ok.inj hc))

/-!
The playback engine of the AudioPlayer component
(src/components/ProcessingStep.tsx).  The component is single threaded;
wall-clock time (the AudioContext currentTime) is passed explicitly to
each operation.  A created AudioBufferSourceNode can never be restarted,
so every play builds a fresh node; nodes that were created earlier stay
in the audio graph until stopped, which the model records by keeping the
full list of created nodes, the current sourceRef at its head.
-/

/-- One AudioBufferSourceNode: where it was started, and whether it has
been started, stopped, or disconnected. -/
structure SourceNode where
  startOffset : ℚ
  started : Bool
  stopped : Bool
  connected : Bool
deriving DecidableEq, Repr

/-- A source node is alive (audible, wired into the graph) when it has
been started and not stopped. -/
def SourceNode.alive (s : SourceNode) : Bool :=
  s.started && !s.stopped

/-- The transient state of the AudioPlayer component: React state
(isPlaying, currentTime, duration) and the refs of lines 189-195.
animChain models animationRef: none when no frame is pending, some c
when the frame scheduled last is pending and its draw closure captured
the isPlaying value c at the render in which drawVisualizer was called
(a re-entrant drawVisualizer would overwrite the ref and orphan a still
pending frame; no claim depends on that corner, and the model keeps the
ref's single handle). -/
structure PlayerState where
  hasBuffer : Bool
  duration : ℚ
  isPlaying : Bool
  currentTime : ℚ
  sources : List SourceNode
  startTime : ℚ
  pauseTime : ℚ
  animChain : Option Bool
  framesDrawn : ℕ
deriving DecidableEq, Repr

/-- Stop the node currently held by sourceRef (the head), as
sourceRef.current.stop() does; earlier nodes are unreachable. -/
def stopHeadSource : List SourceNode → List SourceNode
  | [] => []
  | s :: rest => { s with stopped := true } :: rest

/-- Stop and disconnect the node held by sourceRef (lines 279-280). -/
def stopDisconnectHeadSource : List SourceNode → List SourceNode
  | [] => []
  | s :: rest => { s with stopped := true, connected := false } :: rest

/-- Lines 234-266, playAudio: no-op without a buffer; otherwise create
and start a fresh source node at offset pauseTimeRef, record
startTimeRef = now - offset, attach the onended handler (modelled by
sourceEnded below), request setIsPlaying(true), and call drawVisualizer.
The draw closure reads the isPlaying binding of the render in which this
playAudio was created — still the value from before the setIsPlaying
dispatch.  When that captured value is false (the normal play path) the
immediate draw call returns at its top check and neither renders nor
schedules anything; when it is true (play from a render that was already
Playing, e.g. a seek restart) it updates the progress display, renders
one frame and schedules the next with the same closure. -/
def playAudio (st : PlayerState) (now : ℚ) : PlayerState :=
  if !st.hasBuffer then st
  else
    let captured := st.isPlaying
    let offset := st.pauseTime
    let src : SourceNode :=
      { startOffset := offset, started := true, stopped := false, connected := true }
    let st1 :=
      { st with
        sources := src :: st.sources
        startTime := now - offset
        isPlaying := true }
    if captured then
      { st1 with
        currentTime := now - (now - offset)
        animChain := some captured
        framesDrawn := st1.framesDrawn + 1 }
    else st1

/-- Lines 268-275, pauseAudio: guarded by sourceRef.current and
isPlaying; stops the source, reconciles pauseTimeRef from the wall
clock, clears isPlaying and cancels the pending animation frame. -/
def pauseAudio (st : PlayerState) (now : ℚ) : PlayerState :=
  if !st.sources.isEmpty && st.isPlaying then
    { st with
      sources := stopHeadSource st.sources
      pauseTime := now - st.startTime
      isPlaying := false
      animChain := none }
  else st

/-- Lines 277-286, stopAudio: stop and disconnect the source if any,
clear isPlaying, reset position to 0, cancel the pending frame. -/
def stopAudio (st : PlayerState) : PlayerState :=
  { st with
    sources := stopDisconnectHeadSource st.sources
    isPlaying := false
    pauseTime := 0
    currentTime := 0
    animChain := none }

/-- Lines 288-294, togglePlay. -/
def togglePlay (st : PlayerState) (now : ℚ) : PlayerState :=
  if st.isPlaying then pauseAudio st now else playAudio st now

/-- Lines 303-312, handleSeek: record the raw target in currentTime and
pauseTimeRef; when playing, stop the current source and restart at the
new position via playAudio. -/
def handleSeek (st : PlayerState) (t : ℚ) (now : ℚ) : PlayerState :=
  let st1 := { st with currentTime := t, pauseTime := t }
  if st.isPlaying then
    playAudio { st1 with sources := stopHeadSource st1.sources } now
  else st1

/-- The restart button of line 435: stopAudio then playAudio. -/
def restartAudio (st : PlayerState) (now : ℚ) : PlayerState :=
  playAudio (stopAudio st) now

/-- One animation-frame callback firing (the draw closure of lines
324-358): nothing happens unless a frame is pending; the callback first
checks the isPlaying binding captured by its closure when the chain was
created — not the live state — and returns without rescheduling only
when that captured value is false; otherwise it updates the progress
display, schedules the next frame with the same closure and renders the
bars. -/
def tick (st : PlayerState) (now : ℚ) : PlayerState :=
  match st.animChain with
  | none => st
  | some captured =>
    if captured then
      { st with
        currentTime := now - st.startTime
        animChain := some captured
        framesDrawn := st.framesDrawn + 1 }
    else { st with animChain := none }

/-- Lines 255-262, the onended handler of the current source: it fires
when the source reaches end-of-buffer (or is stopped), and when the
elapsed position is within 0.1 s of the buffer end it resets the
transport to Stopped — setIsPlaying(false), pauseTimeRef = 0,
setCurrentTime(0) — without cancelling the pending animation frame. -/
def sourceEnded (st : PlayerState) (now : ℚ) : PlayerState :=
  if st.duration - 1 / 10 ≤ now - st.startTime then
    { st with
      isPlaying := false
      pauseTime := 0
      currentTime := 0 }
  else st

/-- A sequence of animation-frame callbacks at the given instants. -/
def ticks (st : PlayerState) : List ℚ → PlayerState
  | [] => st
  | n :: ns => ticks (tick st n) ns

/-- The playback position shown to the user: while playing the draw
loop displays now - startTimeRef (line 329); while paused the position
rests at pauseTimeRef. -/
def currentPosition (st : PlayerState) (now : ℚ) : ℚ :=
  if st.isPlaying then now - st.startTime else st.pauseTime

/-- Number of alive graph instantiations. -/
def aliveGraphs (st : PlayerState) : ℕ :=
  st.sources.countP (fun s => SourceNode.alive s)

/-- The component state right after a buffer of the given duration is
loaded and before any transport operation. -/
def initialState (dur : ℚ) : PlayerState :=
  { hasBuffer := true
    duration := dur
    isPlaying := false
    currentTime := 0
    sources := []
    startTime := 0
    pauseTime := 0
    animChain := none
    framesDrawn := 0 }

/-- The singleton-graph invariant of the engine: only the node held by
sourceRef (the head) can be alive, and nothing is alive while not
playing. -/
def EngineInv (st : PlayerState) : Prop :=
  (∀ s ∈ st.sources.tail, SourceNode.alive s = false) ∧
  (st.isPlaying = false → ∀ s ∈ st.sources, SourceNode.alive s = false)

instance (st : PlayerState) : Decidable (EngineInv st) := by
  unfold EngineInv; infer_instance

/-!  Helper lemmas about the codec.  -/

theorem ratTrunc_eq (q : ℚ) : ratTrunc q = if 0 ≤ q then ⌊q⌋ else ⌈q⌉ := by
  unfold ratTrunc
  split_ifs
  · exact Rat.floor_def.symm
  · rw [← Rat.floor_def, Int.floor_neg, neg_neg]

theorem int16OfPair_setInt16LE (v : ℤ) (h1 : -32768 ≤ v) (h2 : v ≤ 32767) :
    int16OfPair ((v % 65536).toNat % 256) ((v % 65536).toNat / 256) = v := by
  simp only [int16OfPair]
  split_ifs <;> omega

theorem bytesToInt16LE_cons2 (a b : ℕ) (w : List ℕ) :
    bytesToInt16LE (a :: b :: w) = int16OfPair a b :: bytesToInt16LE w := rfl

theorem setInt16LE_eq (v : ℤ) :
    setInt16LE v = [(v % 65536).toNat % 256, (v % 65536).toNat / 256] := rfl

theorem bytesToInt16LE_setInt16LE (v : ℤ) (h1 : -32768 ≤ v) (h2 : v ≤ 32767) :
    bytesToInt16LE (setInt16LE v) = [v] := by
  rw [setInt16LE_eq, bytesToInt16LE_cons2, int16OfPair_setInt16LE v h1 h2]
  rfl

theorem bytesToInt16LE_range : ∀ bs : List ℕ, (∀ b ∈ bs, b < 256) →
    ∀ v ∈ bytesToInt16LE bs, -32768 ≤ v ∧ v ≤ 32767
  | [] => by intro _ v hv; simp [bytesToInt16LE] at hv
  | [_] => by intro _ v hv; simp [bytesToInt16LE] at hv
  | b0 :: b1 :: rest => by
    intro hb v hv
    rw [bytesToInt16LE_cons2, List.mem_cons] at hv
    rcases hv with rfl | hv
    · have hb0 : b0 < 256 := hb b0 (by simp)
      have hb1 : b1 < 256 := hb b1 (by simp)
      simp only [int16OfPair]
      split_ifs <;> omega
    · exact bytesToInt16LE_range rest (fun b hbm => hb b (by simp [hbm])) v hv

theorem bytesToInt16LE_length : ∀ bs : List ℕ,
    (bytesToInt16LE bs).length = bs.length / 2
  | [] => by simp [bytesToInt16LE]
  | [_] => by simp [bytesToInt16LE]
  | _ :: _ :: rest => by
    rw [bytesToInt16LE_cons2]
    simp only [List.length_cons, bytesToInt16LE_length rest]
    omega

theorem ratTrunc_bounds {a b : ℤ} {q : ℚ} (h1 : (a : ℚ) ≤ q) (h2 : q ≤ (b : ℚ)) :
    a ≤ ratTrunc q ∧ ratTrunc q ≤ b := by
  rw [ratTrunc_eq]
  split_ifs with h0
  · refine ⟨Int.le_floor.mpr h1, ?_⟩
    calc ⌊q⌋ ≤ ⌊(b : ℚ)⌋ := Int.floor_le_floor h2
    _ = b := Int.floor_intCast b
  · refine ⟨?_, Int.ceil_le.mpr h2⟩
    calc a = ⌈(a : ℚ)⌉ := (Int.ceil_intCast a).symm
    _ ≤ ⌈q⌉ := Int.ceil_le_ceil h1

theorem floatToInt16_num_eq (q : ℚ) :
    floatToInt16 (JSNum.num q) =
      (if max (-1) (min 1 q) < 0 then
        ((ratTrunc (max (-1) (min 1 q) * 32768) + 2 ^ 31) % 2 ^ 32) - 2 ^ 31
      else
        ((ratTrunc (max (-1) (min 1 q) * 32767) + 2 ^ 31) % 2 ^ 32) - 2 ^ 31) := by
  simp only [floatToInt16, JSNum.jsMin, JSNum.jsMax, JSNum.ltZero, JSNum.mulPos, jsOrZero]
  split_ifs <;> simp_all

theorem ratTrunc_intCast (z : ℤ) : ratTrunc ((z : ℚ)) = z := by
  rw [ratTrunc_eq]
  split_ifs
  · exact Int.floor_intCast z
  · exact Int.ceil_intCast z

theorem floatToInt16_nan : floatToInt16 JSNum.nan = 0 := rfl

theorem floatToInt16_posInf : floatToInt16 JSNum.posInf = 32767 := by
  have h1 : max (-1 : ℚ) 1 = 1 := by norm_num
  have h3 : (1 : ℚ) * ((0x7FFF : ℕ) : ℚ) = ((32767 : ℤ) : ℚ) := by push_cast; ring
  simp only [floatToInt16, JSNum.jsMin, JSNum.jsMax, JSNum.ltZero, JSNum.mulPos, h1]
  rw [if_neg (by decide), h3]
  show ((ratTrunc ((32767 : ℤ) : ℚ) + 2 ^ 31) % 2 ^ 32) - 2 ^ 31 = 32767
  rw [ratTrunc_intCast]
  decide

theorem floatToInt16_negInf : floatToInt16 JSNum.negInf = -32768 := by
  have h3 : (-1 : ℚ) * ((0x8000 : ℕ) : ℚ) = ((-32768 : ℤ) : ℚ) := by push_cast; ring
  simp only [floatToInt16, JSNum.jsMin, JSNum.jsMax, JSNum.ltZero, JSNum.mulPos]
  rw [if_pos (by decide), h3]
  show ((ratTrunc ((-32768 : ℤ) : ℚ) + 2 ^ 31) % 2 ^ 32) - 2 ^ 31 = -32768
  rw [ratTrunc_intCast]
  decide

theorem floatToInt16_range (x : JSNum) :
    -32768 ≤ floatToInt16 x ∧ floatToInt16 x ≤ 32767 := by
  cases x with
  | nan => simp [floatToInt16_nan]
  | posInf => simp [floatToInt16_posInf]
  | negInf => simp [floatToInt16_negInf]
  | num q =>
    rw [floatToInt16_num_eq q]
    have hlo : (-1 : ℚ) ≤ max (-1) (min 1 q) := le_max_left _ _
    have hhi : max (-1) (min 1 q) ≤ 1 := max_le (by norm_num) (min_le_left _ _)
    split_ifs with h
    · have hm1 : ((-32768 : ℤ) : ℚ) ≤ max (-1) (min 1 q) * 32768 := by
        push_cast; nlinarith
      have hm2 : max (-1) (min 1 q) * 32768 ≤ ((0 : ℤ) : ℚ) := by
        push_cast; nlinarith
      have hb := ratTrunc_bounds hm1 hm2
      omega
    · push_neg at h
      have hm1 : ((0 : ℤ) : ℚ) ≤ max (-1) (min 1 q) * 32767 := by
        push_cast; nlinarith
      have hm2 : max (-1) (min 1 q) * 32767 ≤ ((32767 : ℤ) : ℚ) := by
        push_cast; nlinarith
      have hb := ratTrunc_bounds hm1 hm2
      omega

theorem floatToInt16_decoded (v : ℤ) (h1 : -32768 ≤ v) (h2 : v ≤ 32767) :
    v - 1 ≤ floatToInt16 (JSNum.num ((v : ℚ) / 32768)) ∧
    floatToInt16 (JSNum.num ((v : ℚ) / 32768)) ≤ v := by
  have hvq1 : ((-32768 : ℤ) : ℚ) ≤ (v : ℚ) := by exact_mod_cast h1
  have hvq2 : (v : ℚ) ≤ ((32767 : ℤ) : ℚ) := by exact_mod_cast h2
  have hle : (v : ℚ) / 32768 ≤ 1 := by
    rw [div_le_one (by norm_num)]; push_cast at hvq2 ⊢; linarith
  have hge : (-1 : ℚ) ≤ (v : ℚ) / 32768 := by
    rw [le_div_iff₀ (by norm_num)]; push_cast at hvq1 ⊢; linarith
  rw [floatToInt16_num_eq]
  rw [min_eq_right hle, max_eq_right hge]
  split_ifs with h
  · -- negative sample: the scaling by 32768 is exact
    have heq : (v : ℚ) / 32768 * 32768 = (v : ℚ) := by field_simp
    rw [heq]
    have hb := ratTrunc_bounds (a := v) (b := v) (le_refl _) (le_refl _)
    omega
  · -- non-negative sample: scaling by 32767 loses at most one step
    push_neg at h
    have hv0 : (0 : ℚ) ≤ (v : ℚ) := by
      by_contra hneg
      push_neg at hneg
      exact absurd (div_neg_of_neg_of_pos hneg (by norm_num)) (not_lt.mpr h)
    have hlow : ((v - 1 : ℤ) : ℚ) ≤ (v : ℚ) / 32768 * 32767 := by
      rw [div_mul_eq_mul_div, le_div_iff₀ (by norm_num)]
      push_cast
      push_cast at hvq2
      linarith
    have hup : (v : ℚ) / 32768 * 32767 ≤ ((v : ℤ) : ℚ) := by
      rw [div_mul_eq_mul_div, div_le_iff₀ (by norm_num)]
      linarith
    have hb := ratTrunc_bounds hlow hup
    omega

theorem wavData_length : ∀ l : List JSNum, (wavData l).length = 2 * l.length
  | [] => rfl
  | s :: rest => by
    simp only [wavData, setInt16LE_eq, List.length_append, List.length_cons,
      wavData_length rest, List.length_nil]
    omega

theorem bytesToInt16LE_wavData : ∀ l : List JSNum,
    bytesToInt16LE (wavData l) = l.map (fun s => floatToInt16 s)
  | [] => rfl
  | s :: rest => by
    have hr := floatToInt16_range s
    simp only [wavData, setInt16LE_eq, List.cons_append, List.nil_append,
      bytesToInt16LE_cons2, int16OfPair_setInt16LE _ hr.1 hr.2,
      bytesToInt16LE_wavData rest, List.map_cons]

theorem range_map_getD {α : Type} (l : List α) (d : α) :
    (List.range l.length).map (fun i => l.getD i d) = l := by
  apply List.ext_getElem
  · simp
  · intro i h1 h2
    simp only [List.getElem_map, List.getElem_range]
    exact List.getD_eq_getElem l d h2

theorem decodeRawPCMBytes_even (bytes : List ℕ) (sr : ℕ) (heven : bytes.length % 2 = 0)
    (hne : bytes ≠ []) :
    decodeRawPCMBytes bytes sr =
      .ok { sampleRate := sr
            channelData := (bytesToInt16LE bytes).map (fun v : ℤ => JSNum.num ((v : ℚ) / 32768)) } := by
  have hpos : 0 < bytes.length := List.length_pos.mpr hne
  have hlen : (bytesToInt16LE bytes).length ≠ 0 := by
    rw [bytesToInt16LE_length]
    omega
  simp [decodeRawPCMBytes, heven, hlen]

theorem writeString_RIFF : writeString "RIFF" = [82, 73, 70, 70] := rfl

theorem writeString_WAVE : writeString "WAVE" = [87, 65, 86, 69] := rfl

theorem writeString_fmt : writeString "fmt " = [102, 109, 116, 32] := rfl

theorem writeString_data : writeString "data" = [100, 97, 116, 97] := rfl

theorem wavHeader_length (ab : AudioBuffer) (len : ℕ) : (wavHeader ab len).length = 44 := by
  simp [wavHeader, writeString_RIFF, writeString_WAVE, writeString_fmt, writeString_data,
    setUint32LE, setUint16LE]

theorem bufferToWave_drop_header (ab : AudioBuffer) (len : ℕ) :
    (bufferToWave ab len).drop 44 =
      wavData ((List.range len).map (fun pos => ab.channelData.getD pos JSNum.nan)) := by
  rw [bufferToWave, ← wavHeader_length ab len, List.drop_left]

theorem bufferToWave_length (ab : AudioBuffer) (len : ℕ) :
    (bufferToWave ab len).length = 44 + len * 2 := by
  rw [bufferToWave, List.length_append, wavHeader_length, wavData_length]
  simp [List.length_map, List.length_range]
  omega

theorem floatToInt16_ge_one {q : ℚ} (h : 1 ≤ q) : floatToInt16 (JSNum.num q) = 32767 := by
  have h1 : max (-1 : ℚ) (min 1 q) = 1 := by rw [min_eq_left h]; norm_num
  have h3 : (1 : ℚ) * ((0x7FFF : ℕ) : ℚ) = ((32767 : ℤ) : ℚ) := by push_cast; ring
  simp only [floatToInt16, JSNum.jsMin, JSNum.jsMax, JSNum.ltZero, JSNum.mulPos, h1]
  rw [if_neg (by decide), h3]
  show ((ratTrunc ((32767 : ℤ) : ℚ) + 2 ^ 31) % 2 ^ 32) - 2 ^ 31 = 32767
  rw [ratTrunc_intCast]
  decide

theorem floatToInt16_le_negOne {q : ℚ} (h : q ≤ -1) : floatToInt16 (JSNum.num q) = -32768 := by
  have h1 : max (-1 : ℚ) (min 1 q) = -1 := by
    rw [min_eq_right (le_trans h (by norm_num)), max_eq_left h]
  have h3 : (-1 : ℚ) * ((0x8000 : ℕ) : ℚ) = ((-32768 : ℤ) : ℚ) := by push_cast; ring
  simp only [floatToInt16, JSNum.jsMin, JSNum.jsMax, JSNum.ltZero, JSNum.mulPos, h1]
  rw [if_pos (by decide), h3]
  show ((ratTrunc ((-32768 : ℤ) : ℚ) + 2 ^ 31) % 2 ^ 32) - 2 ^ 31 = -32768
  rw [ratTrunc_intCast]
  decide

/-!  Claim theorems for the PCM codec.  -/

/-- C2: decoding a payload with an odd byte length fails with the
MalformedAudioData error kind, and with no other outcome. -/
theorem decode_odd_length_malformed (bytes : List ℕ) (sr : ℕ)
    (hodd : bytes.length % 2 = 1) :
    decodeRawPCMBytes bytes sr = .error .malformedAudioData := by
  simp [decodeRawPCMBytes, hodd]

/-- Witness: the one-byte payload fails with MalformedAudioData. -/
theorem decode_odd_length_malformed_witness :
    decodeRawPCMBytes [0] 24000 = .error .malformedAudioData :=
  decode_odd_length_malformed [0] 24000 (by decide)

/-- C3 (code bug): decoding the empty payload is an error in the code,
against the specification: the empty byte sequence reaches line 29,
where createBuffer(1, 0, sampleRate) must throw NotSupportedError, so
no zero-length buffer is ever returned. -/
theorem decode_empty_throws (sr : ℕ) :
    decodeRawPCMBytes [] sr = .error .notSupportedError := by
  simp [decodeRawPCMBytes, bytesToInt16LE]

/-- C4: every signed 16-bit value v decodes to the float v / 32768, and
the concrete payload 00 80 FF 7F (little-endian -32768 then 32767)
decodes exactly to the floats -1.0 and 0.999969482421875. -/
theorem decode_normalizes_int16 (sr : ℕ) (v : ℤ)
    (h1 : -32768 ≤ v) (h2 : v ≤ 32767) :
    decodeRawPCMBytes (setInt16LE v) sr =
      .ok { sampleRate := sr, channelData := [JSNum.num ((v : ℚ) / 32768)] } ∧
    decodeRawPCMBytes [0x00, 0x80, 0xFF, 0x7F] sr =
      .ok { sampleRate := sr
            channelData := [JSNum.num (-1), JSNum.num 0.999969482421875] } := by
  constructor
  · rw [decodeRawPCMBytes_even _ _ (by simp [setInt16LE_eq]) (by rw [setInt16LE_eq]; simp),
      bytesToInt16LE_setInt16LE v h1 h2]
    simp
  · rw [decodeRawPCMBytes_even _ _ (by decide) (by decide)]
    have e : bytesToInt16LE [0x00, 0x80, 0xFF, 0x7F] = [-32768, 32767] := by decide
    rw [e]
    simp only [List.map_cons, List.map_nil, Except.ok.injEq, AudioBuffer.mk.injEq,
      List.cons.injEq, JSNum.num.injEq]
    norm_num

/-- Witness: decode_normalizes_int16 at v = -32768 with sample rate
24000. -/
theorem decode_normalizes_int16_witness :
    decodeRawPCMBytes (setInt16LE (-32768)) 24000 =
      .ok { sampleRate := 24000, channelData := [JSNum.num (((-32768 : ℤ) : ℚ) / 32768)] } ∧
    decodeRawPCMBytes [0x00, 0x80, 0xFF, 0x7F] 24000 =
      .ok { sampleRate := 24000
            channelData := [JSNum.num (-1), JSNum.num 0.999969482421875] } :=
  decode_normalizes_int16 24000 (-32768) (by decide) (by decide)

/-- C5: for a mono buffer, the encoded output is exactly
44 + sampleCount * 2 bytes, and the header declares byte-rate
sampleRate * 2, block-align 2, data-chunk size sampleCount * 2 and
total size dataChunkSize + 36. -/
theorem bufferToWave_format (ab : AudioBuffer)
    (hsr : ab.sampleRate * 2 < 4294967296)
    (hlen : ab.channelData.length * 2 + 44 < 4294967296) :
    (bufferToWave ab ab.channelData.length).length = 44 + ab.channelData.length * 2 ∧
    readLE32 (bufferToWave ab ab.channelData.length) 28 = ab.sampleRate * 2 ∧
    readLE16 (bufferToWave ab ab.channelData.length) 32 = 2 ∧
    readLE32 (bufferToWave ab ab.channelData.length) 40 = ab.channelData.length * 2 ∧
    readLE32 (bufferToWave ab ab.channelData.length) 4 = ab.channelData.length * 2 + 36 := by
  refine ⟨bufferToWave_length ab _, ?_, ?_, ?_, ?_⟩ <;>
  · simp only [readLE32, readLE16, bufferToWave, wavHeader, AudioBuffer.numberOfChannels,
      writeString_RIFF, writeString_WAVE, writeString_fmt, writeString_data,
      setUint32LE, setUint16LE, List.cons_append, List.nil_append,
      List.getD_cons_zero, List.getD_cons_succ]
    try omega

/-- Witness: bufferToWave_format at a one-sample 24 kHz buffer. -/
theorem bufferToWave_format_witness :
    (bufferToWave (AudioBuffer.mk 24000 [JSNum.num 0]) 1).length = 46 ∧
    readLE32 (bufferToWave (AudioBuffer.mk 24000 [JSNum.num 0]) 1) 28 = 48000 ∧
    readLE16 (bufferToWave (AudioBuffer.mk 24000 [JSNum.num 0]) 1) 32 = 2 ∧
    readLE32 (bufferToWave (AudioBuffer.mk 24000 [JSNum.num 0]) 1) 40 = 2 ∧
    readLE32 (bufferToWave (AudioBuffer.mk 24000 [JSNum.num 0]) 1) 4 = 38 :=
  bufferToWave_format (AudioBuffer.mk 24000 [JSNum.num 0]) (by decide) (by decide)

/-- C10: the encoder conversion of line 90-92 is total over all
JavaScript numbers: the stored value is always a valid signed 16-bit
integer, NaN is stored as 0 by the truncating conversion, infinities and
out-of-range finite values clamp to the extremes, and every 16-bit value
in the data section of bufferToWave is in range. -/
theorem floatToInt16_total :
    (∀ x : JSNum, -32768 ≤ floatToInt16 x ∧ floatToInt16 x ≤ 32767) ∧
    floatToInt16 JSNum.nan = 0 ∧
    floatToInt16 JSNum.posInf = 32767 ∧
    floatToInt16 JSNum.negInf = -32768 ∧
    (∀ q : ℚ, 1 ≤ q → floatToInt16 (JSNum.num q) = 32767) ∧
    (∀ q : ℚ, q ≤ -1 → floatToInt16 (JSNum.num q) = -32768) ∧
    (∀ (ab : AudioBuffer) (len : ℕ),
      ∀ v ∈ bytesToInt16LE ((bufferToWave ab len).drop 44), -32768 ≤ v ∧ v ≤ 32767) := by
  refine ⟨floatToInt16_range, floatToInt16_nan, floatToInt16_posInf, floatToInt16_negInf,
    fun q h => floatToInt16_ge_one h, fun q h => floatToInt16_le_negOne h, ?_⟩
  intro ab len v hv
  rw [bufferToWave_drop_header, bytesToInt16LE_wavData, List.mem_map] at hv
  obtain ⟨s, _, rfl⟩ := hv
  exact floatToInt16_range s

/-- Witness: floatToInt16_total instantiated on NaN, an out-of-range
value and a data section. -/
theorem floatToInt16_total_witness :
    floatToInt16 JSNum.nan = 0 ∧ floatToInt16 (JSNum.num 2) = 32767 := by
  refine ⟨floatToInt16_total.2.1, ?_⟩
  exact floatToInt16_total.2.2.2.2.1 2 (by decide)

/-- C1 (amended): for every non-empty valid even-length byte sequence,
decoding, encoding the resulting buffer, and re-decoding the data
section of the encoding yields samples that differ from the first
decoding by at most 1/32768 each, with no accumulation of error across
samples.  The empty even-length sequence is excluded: there decode
itself already fails (see the counterexample and C3). -/
theorem decode_encode_redecode (bytes : List ℕ) (sr : ℕ)
    (hbytes : ∀ b ∈ bytes, b < 256) (heven : bytes.length % 2 = 0)
    (hne : bytes ≠ []) :
    ∃ buf buf2 : AudioBuffer,
      decodeRawPCMBytes bytes sr = .ok buf ∧
      decodeRawPCMBytes ((bufferToWave buf buf.channelData.length).drop 44) sr = .ok buf2 ∧
      buf2.channelData.length = buf.channelData.length ∧
      ∀ i : ℕ,
        |(buf2.channelData.getD i (JSNum.num 0)).toRat -
          (buf.channelData.getD i (JSNum.num 0)).toRat| ≤ 1 / 32768 := by
  have hdec := decodeRawPCMBytes_even bytes sr heven hne
  have hpos : 0 < bytes.length := List.length_pos.mpr hne
  set vs := bytesToInt16LE bytes with hvs
  have hvpos : 0 < vs.length := by
    rw [hvs, bytesToInt16LE_length]
    omega
  set f : ℤ → JSNum := fun v => JSNum.num ((v : ℚ) / 32768) with hf
  set buf : AudioBuffer := ⟨sr, vs.map f⟩ with hbuf
  have hdata : (bufferToWave buf buf.channelData.length).drop 44 = wavData buf.channelData := by
    rw [bufferToWave_drop_header]
    congr 1
    exact range_map_getD buf.channelData JSNum.nan
  have heven2 : (wavData buf.channelData).length % 2 = 0 := by
    rw [wavData_length]; omega
  have hne2 : wavData buf.channelData ≠ [] := by
    have : 0 < (wavData buf.channelData).length := by
      rw [wavData_length]
      simp only [hbuf, List.length_map]
      omega
    exact List.ne_nil_of_length_pos this
  have hdec2 := decodeRawPCMBytes_even (wavData buf.channelData) sr heven2 hne2
  rw [bytesToInt16LE_wavData] at hdec2
  refine ⟨buf, _, hdec, by rw [hdata]; exact hdec2, by simp [hbuf], ?_⟩
  intro i
  by_cases hi : i < vs.length
  · have hmem : vs[i] ∈ vs := List.getElem_mem hi
    have hrange := bytesToInt16LE_range bytes hbytes vs[i] hmem
    have hnear := floatToInt16_decoded vs[i] hrange.1 hrange.2
    have e1 : (buf.channelData.map (fun s => floatToInt16 s)).map f =
        vs.map (fun v => f (floatToInt16 (f v))) := by
      simp [hbuf, List.map_map, Function.comp]
    rw [e1]
    have g1 : (vs.map (fun v => f (floatToInt16 (f v)))).getD i (JSNum.num 0) =
        f (floatToInt16 (f vs[i])) := by
      rw [List.getD_eq_getElem _ _ (by simpa using hi), List.getElem_map]
    have g2 : (vs.map f).getD i (JSNum.num 0) = f vs[i] := by
      rw [List.getD_eq_getElem _ _ (by simpa using hi), List.getElem_map]
    show |((vs.map (fun v => f (floatToInt16 (f v)))).getD i (JSNum.num 0)).toRat -
        ((vs.map f).getD i (JSNum.num 0)).toRat| ≤ 1 / 32768
    rw [g1, g2]
    set v := vs[i] with hv
    set w := floatToInt16 (f v) with hw
    have htr : (f (floatToInt16 (f v))).toRat = (w : ℚ) / 32768 := rfl
    have htr2 : (f v).toRat = (v : ℚ) / 32768 := rfl
    rw [htr, htr2, div_sub_div_same, abs_le]
    have hwv1 : ((v : ℚ) - 1) ≤ (w : ℚ) := by exact_mod_cast hnear.1
    have hwv2 : (w : ℚ) ≤ (v : ℚ) := by exact_mod_cast hnear.2
    constructor <;> [nlinarith; nlinarith]
  · have hlen1 : (vs.map f).length ≤ i := by simpa using le_of_not_lt hi
    have hlen2 : ((buf.channelData.map (fun s => floatToInt16 s)).map f).length ≤ i := by
      simp [hbuf]
      omega
    rw [List.getD_eq_default _ _ hlen2, List.getD_eq_default _ _ hlen1]
    norm_num [JSNum.toRat]

/-- Witness: the round trip on the two-byte payload 34 12. -/
theorem decode_encode_redecode_witness :
    ∃ buf buf2 : AudioBuffer,
      decodeRawPCMBytes [0x34, 0x12] 24000 = .ok buf ∧
      decodeRawPCMBytes ((bufferToWave buf buf.channelData.length).drop 44) 24000 = .ok buf2 ∧
      buf2.channelData.length = buf.channelData.length ∧
      ∀ i : ℕ,
        |(buf2.channelData.getD i (JSNum.num 0)).toRat -
          (buf.channelData.getD i (JSNum.num 0)).toRat| ≤ 1 / 32768 :=
  decode_encode_redecode [0x34, 0x12] 24000 (by decide) (by decide) (by decide)

/-- C1 (counterexample): the claim fails at the empty even-length byte
sequence: decoding it does not yield a sample sequence at all — the
createBuffer call of line 29 throws NotSupportedError — so the
decode-encode-redecode round trip cannot even start there. -/
theorem decode_encode_redecode_counterexample :
    decodeRawPCMBytes [] 24000 = .error .notSupportedError ∧
    (decodeRawPCMBytes [] 24000).isOk = false := by
  constructor <;> simp [decodeRawPCMBytes, bytesToInt16LE, Except.isOk, Except.toBool]

/-!  Helper lemmas about the playback engine.  -/

theorem allDead_stopHead {l : List SourceNode}
    (h : ∀ s ∈ l.tail, SourceNode.alive s = false) :
    ∀ s ∈ stopHeadSource l, SourceNode.alive s = false := by
  cases l with
  | nil => intro s hs; simp [stopHeadSource] at hs
  | cons a rest =>
    intro s hs
    simp only [stopHeadSource, List.mem_cons] at hs
    rcases hs with rfl | hs
    · simp [SourceNode.alive]
    · exact h s hs

theorem allDead_stopDisconnectHead {l : List SourceNode}
    (h : ∀ s ∈ l.tail, SourceNode.alive s = false) :
    ∀ s ∈ stopDisconnectHeadSource l, SourceNode.alive s = false := by
  cases l with
  | nil => intro s hs; simp [stopDisconnectHeadSource] at hs
  | cons a rest =>
    intro s hs
    simp only [stopDisconnectHeadSource, List.mem_cons] at hs
    rcases hs with rfl | hs
    · simp [SourceNode.alive]
    · exact h s hs

theorem countP_eq_zero_of_allDead {l : List SourceNode}
    (h : ∀ s ∈ l, SourceNode.alive s = false) :
    l.countP (fun s => SourceNode.alive s) = 0 := by
  rw [List.countP_eq_zero]
  intro s hs
  simp [h s hs]

theorem EngineInv_playAudio {st : PlayerState} (now : ℚ)
    (h : EngineInv st) (hnp : st.isPlaying = false) :
    EngineInv (playAudio st now) := by
  simp only [playAudio]
  split_ifs with hb hc
  · exact h
  · rw [hnp] at hc
    cases hc
  · refine ⟨?_, by simp⟩
    intro s hs
    exact h.2 hnp s (by simpa using hs)

theorem EngineInv_pauseAudio {st : PlayerState} (now : ℚ) (h : EngineInv st) :
    EngineInv (pauseAudio st now) := by
  unfold pauseAudio
  split_ifs with hg
  · exact ⟨fun s hs => h.1 s (by
      cases hl : st.sources with
      | nil => simp [hl, stopHeadSource] at hs
      | cons a rest => simpa [hl, stopHeadSource] using hs),
    fun _ => allDead_stopHead h.1⟩
  · exact h

theorem EngineInv_stopAudio {st : PlayerState} (h : EngineInv st) :
    EngineInv (stopAudio st) := by
  refine ⟨fun s hs => h.1 s ?_, fun _ => allDead_stopDisconnectHead h.1⟩
  unfold stopAudio at hs
  cases hl : st.sources with
  | nil => simp [hl, stopDisconnectHeadSource] at hs
  | cons a rest => simpa [hl, stopDisconnectHeadSource] using hs

theorem allDead_tail_stopHead {l : List SourceNode}
    (h : ∀ s ∈ l.tail, SourceNode.alive s = false) :
    ∀ s ∈ (stopHeadSource l).tail, SourceNode.alive s = false := by
  cases l with
  | nil => intro s hs; simp [stopHeadSource] at hs
  | cons a rest => intro s hs; exact h s (by simpa [stopHeadSource] using hs)

theorem EngineInv_handleSeek {st : PlayerState} (t now : ℚ) (h : EngineInv st) :
    EngineInv (handleSeek st t now) := by
  simp only [handleSeek, playAudio]
  split_ifs with hp hb
  · -- playing, but no buffer: the current source was stopped
    refine ⟨?_, ?_⟩
    · intro s hs
      exact allDead_tail_stopHead h.1 s (by simpa using hs)
    · intro hnp
      simp only at hnp
      rw [hp] at hnp
      cases hnp
  · -- playing with a buffer (so the captured flag is true): stop the
    -- old source, then a fresh one on top of dead nodes
    refine ⟨?_, ?_⟩
    · intro s hs
      exact allDead_stopHead h.1 s (by simpa using hs)
    · intro hnp
      simp at hnp
  · -- paused: only the two time fields change
    exact ⟨h.1, fun hnp => h.2 hnp⟩

theorem EngineInv_tick {st : PlayerState} (now : ℚ) (h : EngineInv st) :
    EngineInv (tick st now) := by
  unfold tick
  split
  · exact h
  · split_ifs <;> exact h

theorem EngineInv_togglePlay {st : PlayerState} (now : ℚ) (h : EngineInv st) :
    EngineInv (togglePlay st now) := by
  unfold togglePlay
  split_ifs with hp
  · exact EngineInv_pauseAudio now h
  · exact EngineInv_playAudio now h (by simpa using hp)

theorem aliveGraphs_le_one {st : PlayerState} (h : EngineInv st) :
    aliveGraphs st ≤ 1 := by
  unfold aliveGraphs
  cases hl : st.sources with
  | nil => simp
  | cons a rest =>
    rw [List.countP_cons]
    have hz : rest.countP (fun s => SourceNode.alive s) = 0 :=
      countP_eq_zero_of_allDead (fun s hs => h.1 s (by simp [hl, hs]))
    rw [hz]
    split_ifs <;> simp

theorem tick_stuck_chain {st : PlayerState} (n : ℚ) (h : st.animChain = some true) :
    tick st n =
      { st with currentTime := n - st.startTime, framesDrawn := st.framesDrawn + 1 } := by
  simp [tick, h]

theorem ticks_stuck_chain : ∀ (ns : List ℚ) (st : PlayerState),
    st.animChain = some true →
    (ticks st ns).animChain = some true ∧
    (ticks st ns).framesDrawn = st.framesDrawn + ns.length ∧
    (ticks st ns).isPlaying = st.isPlaying
  | [], st, h => ⟨h, rfl, rfl⟩
  | n :: ns, st, h => by
    have ht := tick_stuck_chain n h
    have ih := ticks_stuck_chain ns (tick st n) (by rw [ht]; exact h)
    rw [ticks] at *
    refine ⟨ih.1, ?_, ?_⟩
    · rw [ih.2.1, ht]
      simp [List.length_cons]
      omega
    · rw [ih.2.2, ht]

/-!  Claim theorems for the playback engine and visualizer.  -/

/-- C6 (amended): handleSeek stores the raw seek target without
clamping: pausedAtSeconds and the displayed position become exactly the
target, for every target including out-of-range ones; in particular for
targets inside [0, duration], the only values the range input emits,
seek positions playback at the target. -/
theorem handleSeek_sets_raw_target (st : PlayerState) (t now : ℚ) :
    (handleSeek st t now).pauseTime = t ∧ (handleSeek st t now).currentTime = t := by
  simp only [handleSeek, playAudio]
  split_ifs <;> constructor <;> simp [sub_sub_cancel]

/-- C6 (counterexample): seek does not clamp to [0, duration]: on a
freshly loaded one-second buffer, seek(-5) sets pausedAtSeconds to -5
while seek(0) sets it to 0, and seek(duration + 100) = seek(101) sets it
to 101 while seek(duration) sets it to 1, so the out-of-range calls do
not behave like the clamped ones. -/
theorem handleSeek_no_clamp_counterexample :
    (handleSeek (initialState 1) (-5) 0).pauseTime = -5 ∧
    (handleSeek (initialState 1) 0 0).pauseTime = 0 ∧
    (handleSeek (initialState 1) (-5) 0).pauseTime ≠
      (handleSeek (initialState 1) 0 0).pauseTime ∧
    (handleSeek (initialState 1) 101 0).pauseTime = 101 ∧
    (handleSeek (initialState 1) 1 0).pauseTime = 1 ∧
    (handleSeek (initialState 1) 101 0).pauseTime ≠
      (handleSeek (initialState 1) 1 0).pauseTime := by
  refine ⟨rfl, rfl, ?_, rfl, rfl, ?_⟩ <;> norm_num [handleSeek, initialState]

/-- C7: after play, pause, seek(t), play on a loaded buffer, the
position immediately after the second play is exactly t (the model is
exact where the implementation has floating-point tolerance), and
exactly one graph instantiation is alive. -/
theorem play_pause_seek_play_position (dur t n0 n1 n2 n3 : ℚ)
    (h0 : 0 ≤ t) (h1 : t ≤ dur) :
    currentPosition
      (playAudio (handleSeek (pauseAudio (playAudio (initialState dur) n0) n1) t n2) n3) n3 = t ∧
    aliveGraphs
      (playAudio (handleSeek (pauseAudio (playAudio (initialState dur) n0) n1) t n2) n3) = 1 := by
  constructor <;>
  · simp [playAudio, pauseAudio, handleSeek, initialState, currentPosition, aliveGraphs,
      stopHeadSource, SourceNode.alive, List.countP, List.countP.go]
    try ring

/-- Witness: play at 0, pause at 2, seek to 1, play at 5. -/
theorem play_pause_seek_play_position_witness :
    currentPosition
      (playAudio (handleSeek (pauseAudio (playAudio (initialState 2) 0) 2) 1 3) 5) 5 = 1 ∧
    aliveGraphs
      (playAudio (handleSeek (pauseAudio (playAudio (initialState 2) 0) 2) 1 3) 5) = 1 :=
  play_pause_seek_play_position 2 1 0 2 3 5 (by decide) (by decide)

/-- C8 (amended): the singleton-graph invariant holds for the initial
state and is preserved by every transport operation the component
wires to the UI (togglePlay, pauseAudio, stopAudio, handleSeek, the
stop-then-play restart, and the animation tick), each of which stops
the current source before playAudio builds a new one; under the
invariant at most one graph instantiation is alive.  playAudio itself
does not tear down a prior source, so a direct re-entrant playAudio
while Playing violates the claim (see the counterexample). -/
theorem engine_single_graph_invariant (st : PlayerState) (t now : ℚ)
    (h : EngineInv st) :
    aliveGraphs st ≤ 1 ∧
    EngineInv (initialState t) ∧
    EngineInv (togglePlay st now) ∧
    EngineInv (pauseAudio st now) ∧
    EngineInv (stopAudio st) ∧
    EngineInv (handleSeek st t now) ∧
    EngineInv (restartAudio st now) ∧
    EngineInv (tick st now) :=
  ⟨aliveGraphs_le_one h,
    ⟨by simp [initialState], by simp [initialState]⟩,
    EngineInv_togglePlay now h,
    EngineInv_pauseAudio now h,
    EngineInv_stopAudio h,
    EngineInv_handleSeek t now h,
    EngineInv_playAudio now (EngineInv_stopAudio h) (by simp [stopAudio]),
    EngineInv_tick now h⟩

/-- Witness: the invariant chain from the freshly loaded state. -/
theorem engine_single_graph_invariant_witness :
    aliveGraphs (initialState 1) ≤ 1 ∧
    EngineInv (initialState 0) ∧
    EngineInv (togglePlay (initialState 1) 0) ∧
    EngineInv (pauseAudio (initialState 1) 0) ∧
    EngineInv (stopAudio (initialState 1)) ∧
    EngineInv (handleSeek (initialState 1) 0 0) ∧
    EngineInv (restartAudio (initialState 1) 0) ∧
    EngineInv (tick (initialState 1) 0) :=
  engine_single_graph_invariant (initialState 1) 0 0 (by decide)

/-- C8 (counterexample): playAudio invoked while the engine is already
Playing does not first tear down the prior source: afterwards two graph
instantiations are alive at once. -/
theorem playAudio_reentrant_two_graphs :
    aliveGraphs (playAudio
      { hasBuffer := true, duration := 1, isPlaying := true, currentTime := 0,
        sources := [{ startOffset := 0, started := true, stopped := false, connected := true }],
        startTime := 0, pauseTime := 0, animChain := some true, framesDrawn := 1 } 5) = 2 := by
  simp [playAudio, aliveGraphs, SourceNode.alive, List.countP, List.countP.go]

/-- C9 (code bug): the specification demands that frame production stop
once the not-playing state settles after pause() or stop(), each tick
checking liveness before rescheduling itself; the code violates this.
The draw closure of line 325 reads the isPlaying binding captured when
the chain was created, so its check can never stop a chain that is
running, and the onended handler of lines 255-262 clears isPlaying
without cancelling the pending frame.  Failing trace, evaluated here:
play on a loaded one-second buffer at time 0 (the captured flag is still
false, so no chain starts), seek to 0 at time 1 while playing (the
restart starts a chain whose closure captured true), natural end of the
source at time 2 (isPlaying becomes false, the frame stays pending),
pause at time 3 (its guard sees isPlaying false and cancels nothing):
afterwards the state is settled not-playing, yet every animation tick
still draws a frame and reschedules itself, forever. -/
theorem visualizer_frames_after_pause_bug :
    (pauseAudio (sourceEnded (handleSeek (playAudio (initialState 1) 0) 0 1) 2) 3).isPlaying
      = false ∧
    (pauseAudio (sourceEnded (handleSeek (playAudio (initialState 1) 0) 0 1) 2) 3).animChain
      = some true ∧
    ∀ ns : List ℚ,
      (ticks (pauseAudio (sourceEnded (handleSeek (playAudio (initialState 1) 0) 0 1) 2) 3)
          ns).framesDrawn =
        (pauseAudio (sourceEnded (handleSeek (playAudio (initialState 1) 0) 0 1) 2)
          3).framesDrawn + ns.length ∧
      (ticks (pauseAudio (sourceEnded (handleSeek (playAudio (initialState 1) 0) 0 1) 2) 3)
          ns).animChain = some true ∧
      (ticks (pauseAudio (sourceEnded (handleSeek (playAudio (initialState 1) 0) 0 1) 2) 3)
          ns).isPlaying = false := by
  have e : pauseAudio (sourceEnded (handleSeek (playAudio (initialState 1) 0) 0 1) 2) 3 =
      { hasBuffer := true, duration := 1, isPlaying := false, currentTime := 0,
        sources := [{ startOffset := 0, started := true, stopped := false, connected := true },
          { startOffset := 0, started := true, stopped := true, connected := true }],
        startTime := 1, pauseTime := 0, animChain := some true, framesDrawn := 1 } := by
    norm_num [playAudio, handleSeek, sourceEnded, pauseAudio, initialState, stopHeadSource]
  rw [e]
  refine ⟨rfl, rfl, ?_⟩
  intro ns
  have h := ticks_stuck_chain ns
    { hasBuffer := true, duration := 1, isPlaying := false, currentTime := 0,
      sources := [{ startOffset := 0, started := true, stopped := false, connected := true },
        { startOffset := 0, started := true, stopped := true, connected := true }],
      startTime := 1, pauseTime := 0, animChain := some true, framesDrawn := 1 } rfl
  exact ⟨h.2.1, h.1, h.2.2⟩

end LearnOn
